import Mathlib

/-!
Verification of the `zoom_phone_scripts` repository: a shallow embedding of
the paginating HTTP GET helper (`zoomphone/phone.py`, `_phone_get`) and the
call-recording export script (`call_recordings.py`), together with theorems
settling the specification's claims about them.

The network is modelled as an oracle: a list of scripted HTTP responses
consumed one per request.  Observable side effects (requests issued, the
1-second sleeps of the rate-limit backoff) are recorded in an event trace.
Python exceptions are modelled as an explicit error type: the explicitly
`raise`d errors (`ValueError`, the two `RuntimeError`s, `RuntimeWarning`)
and the unhandled `KeyError`/`TypeError` the code can hit are distinct
constructors.
-/

namespace ZoomPhone

/-- A JSON value, as produced by `response.json()`.  Only the shapes the
client manipulates are needed: strings, numbers, arrays, objects, null. -/
inductive Json where
  | null : Json
  | str : String → Json
  | num : Int → Json
  | arr : List Json → Json
  | obj : List (String × Json) → Json
deriving Repr

/-- Dictionary lookup on a JSON object: `some v` when the key is present
(Python `key in d` / `d[key]`), `none` otherwise. -/
def Json.get : Json → String → Option Json
  | .obj fields, k => lookupField fields k
  | _, _ => none
where lookupField : List (String × Json) → String → Option Json
  | [], _ => none
  | (k', v) :: rest, k => if k' = k then some v else lookupField rest k

/-- Python `x == ""` on a JSON value: true exactly for the empty string.
(`raw_json["next_page_token"] != ""` in the source is the negation.) -/
def jsonIsEmptyStr : Json → Bool
  | .str s => s == ""
  | _ => false

/-- Python `+` as used on the values stored under the pagination key:
list concatenation (the intended case), plus the other defined cases;
mixed operands raise `TypeError`. -/
def pyAdd : Json → Json → Option Json
  | .arr xs, .arr ys => some (.arr (xs ++ ys))
  | .str a, .str b => some (.str (a ++ b))
  | .num a, .num b => some (.num (a + b))
  | _, _ => none

/-- Query parameters: a Python dict of string keys (`params`). -/
def Params := List (String × Json)

/-- `params["next_page_token"] = tok`: dict update, keeping insertion
order, appending when the key is new. -/
def setParam (ps : List (String × Json)) (k : String) (v : Json) :
    List (String × Json) :=
  match ps with
  | [] => [(k, v)]
  | (k', v') :: rest => if k' = k then (k, v) :: rest else (k', v') :: setParam rest k v

/-- An HTTP response as seen by the client: status code and decoded body. -/
structure HttpResponse where
  status_code : Nat
  body : Json
deriving Repr

/-- The failure modes of `_phone_get`.  The first four are explicitly
raised in the source; `keyError` and `typeError` are unhandled Python
exceptions the code can run into; `noResponse` is a model artifact marking
exhaustion of the scripted response list (a real request always gets some
response, so theorems supply enough responses). -/
inductive PhoneError where
  | valueError (msg : String)
  | rateLimitExceeded (url : String)
  | httpError (status : Nat) (url : String)
  | missingKey (key : String)
  | keyError (key : String)
  | typeError
  | noResponse
deriving DecidableEq, Repr

/-- Observable events: an HTTP GET (with its url and the params sent), and
the fixed `time.sleep(1)` of the rate-limit backoff. -/
inductive Ev where
  | request (url : String) (params : Option (List (String × Json)))
  | sleepOneSecond
deriving Repr

/-- Result of the rate-limit retry loop (`phone.py` lines 40-60): the
response that broke the loop or the error raised, the remaining scripted
responses, and the trace of requests and sleeps. -/
structure LoopOut where
  result : Except PhoneError HttpResponse
  rest : List HttpResponse
  trace : List Ev

/-- The `while True` rate-limit loop of `_phone_get`: issue the GET; on
200 exit with the response; on 429 raise once the counter exceeds 5,
otherwise bump the counter, sleep one second and retry; on any other
status raise immediately with the status code. -/
def rateLimitLoop (url : String) (params : Option (List (String × Json))) :
    List HttpResponse → Nat → LoopOut
  | [], _ => ⟨.error .noResponse, [], [.request url params]⟩
  | r :: rest, counter =>
    if r.status_code = 200 then
      ⟨.ok r, rest, [.request url params]⟩
    else if r.status_code = 429 then
      if counter > 5 then
        ⟨.error (.rateLimitExceeded url), rest, [.request url params]⟩
      else
        let o := rateLimitLoop url params rest (counter + 1)
        ⟨o.result, o.rest, .request url params :: .sleepOneSecond :: o.trace⟩
    else
      ⟨.error (.httpError r.status_code url), rest, [.request url params]⟩

/-- Result of `_phone_get`: the returned JSON value (in non-raw mode the
concatenated list, as a `Json.arr`, mirroring the source's accumulator
variable) or the error raised, plus remaining responses and trace. -/
structure GetOut where
  result : Except PhoneError Json
  rest : List HttpResponse
  trace : List Ev

theorem rateLimitLoop_rest_le (url : String) (params : Option (List (String × Json)))
    (responses : List HttpResponse) (counter : Nat) :
    (rateLimitLoop url params responses counter).rest.length ≤ responses.length := by
  induction responses generalizing counter with
  | nil => simp [rateLimitLoop]
  | cons r rest ih =>
    simp only [rateLimitLoop]
    split
    · simp
    · split
      · split
        · simp
        · exact Nat.le_trans (ih (counter + 1)) (Nat.le_succ _)
      · simp

theorem rateLimitLoop_rest_le_tail (url : String) (params : Option (List (String × Json)))
    (r : HttpResponse) (rest : List HttpResponse) (counter : Nat) :
    (rateLimitLoop url params (r :: rest) counter).rest.length ≤ rest.length := by
  simp only [rateLimitLoop]
  split
  · simp
  · split
    · split
      · simp
      · exact rateLimitLoop_rest_le url params rest (counter + 1)
    · simp

theorem rateLimitLoop_ok_rest_lt (url : String) (params : Option (List (String × Json)))
    (responses : List HttpResponse) (counter : Nat) (resp : HttpResponse)
    (h : (rateLimitLoop url params responses counter).result = .ok resp) :
    (rateLimitLoop url params responses counter).rest.length < responses.length := by
  cases responses with
  | nil => simp [rateLimitLoop] at h
  | cons r rest =>
    simpa using Nat.lt_succ_of_le (rateLimitLoop_rest_le_tail url params r rest counter)

/-- The pagination loop of `_phone_get` (`phone.py` lines 72-86), entered
in non-raw mode once the first page succeeded and contained the key.
`acc` is `list_of_paged_data_to_return`, `raw_json` the current decoded
body.  While `raw_json["next_page_token"]` (a `KeyError` when absent) is
not `""`: store the token into `params` (a `TypeError` when `params` is
`None`), re-issue the request (the recursive raw-mode `_phone_get`, i.e.
one more run of the rate-limit loop), and when the new body contains the
key, append its value to the accumulator with `+`. -/
def paginate (url k : String) (params : Option (List (String × Json)))
    (acc raw_json : Json) (responses : List HttpResponse) : GetOut :=
  match raw_json.get "next_page_token" with
  | none => ⟨.error (.keyError "next_page_token"), responses, []⟩
  | some tok =>
    if jsonIsEmptyStr tok then
      ⟨.ok acc, responses, []⟩
    else
      match params with
      | none => ⟨.error .typeError, responses, []⟩
      | some ps =>
        match h : (rateLimitLoop url (some (setParam ps "next_page_token" tok)) responses 0).result with
        | .error e =>
          ⟨.error e, (rateLimitLoop url (some (setParam ps "next_page_token" tok)) responses 0).rest,
            (rateLimitLoop url (some (setParam ps "next_page_token" tok)) responses 0).trace⟩
        | .ok resp =>
          let o := rateLimitLoop url (some (setParam ps "next_page_token" tok)) responses 0
          match resp.body.get k with
          | some v =>
            match pyAdd acc v with
            | none => ⟨.error .typeError, o.rest, o.trace⟩
            | some acc' =>
              let p := paginate url k (some (setParam ps "next_page_token" tok)) acc' resp.body o.rest
              ⟨p.result, p.rest, o.trace ++ p.trace⟩
          | none =>
            let p := paginate url k (some (setParam ps "next_page_token" tok)) acc resp.body o.rest
            ⟨p.result, p.rest, o.trace ++ p.trace⟩
termination_by responses.length
decreasing_by
  all_goals exact rateLimitLoop_ok_rest_lt _ _ _ _ _ h

/-- `_phone_get` (`phone.py` lines 7-91).  In raw mode the decoded body of
the single (retry-protected) request is returned verbatim; in non-raw mode
the accumulator starts from the key's value on the first page (raising the
`RuntimeWarning` when the key is absent) and pagination completes it. -/
def phone_get (server endpoint_url : String) (params : Option (List (String × Json)))
    (raw : Bool) (key_in_response_to_return : Option String)
    (responses : List HttpResponse) : GetOut :=
  match raw, key_in_response_to_return with
  | false, none =>
    ⟨.error (.valueError "You must specify a key_in_response_to_return if 'raw' = False"),
      responses, []⟩
  | true, _ =>
    let url := "https://" ++ server ++ endpoint_url
    let o := rateLimitLoop url params responses 0
    match o.result with
    | .error e => ⟨.error e, o.rest, o.trace⟩
    | .ok resp => ⟨.ok resp.body, o.rest, o.trace⟩
  | false, some k =>
    let url := "https://" ++ server ++ endpoint_url
    let o := rateLimitLoop url params responses 0
    match o.result with
    | .error e => ⟨.error e, o.rest, o.trace⟩
    | .ok resp =>
      match resp.body.get k with
      | some v =>
        let p := paginate url k params v resp.body o.rest
        ⟨p.result, p.rest, o.trace ++ p.trace⟩
      | none => ⟨.error (.missingKey k), o.rest, o.trace⟩

/-! ## `call_recordings.py`: recording export -/

/-- The fields of a `datetime.datetime` used by the export script. -/
structure PyDateTime where
  year : Nat
  month : Nat
  day : Nat
  hour : Nat
  minute : Nat
  second : Nat
deriving DecidableEq, Repr

/-- Numeric value of a decimal digit character, `none` otherwise. -/
def digitVal (c : Char) : Option Nat :=
  if c.isDigit then some (c.toNat - '0'.toNat) else none

/-- Two decimal digits as a number. -/
def digit2 (a b : Char) : Option Nat := do
  let x ← digitVal a
  let y ← digitVal b
  pure (10 * x + y)

/-- Four decimal digits as a number. -/
def digit4 (a b c d : Char) : Option Nat := do
  let x ← digit2 a b
  let y ← digit2 c d
  pure (100 * x + y)

def isLeapYear (y : Nat) : Bool :=
  (y % 4 == 0 && y % 100 != 0) || y % 400 == 0

def daysInMonth (y m : Nat) : Nat :=
  if m = 2 then (if isLeapYear y then 29 else 28)
  else if m = 4 ∨ m = 6 ∨ m = 9 ∨ m = 11 then 30
  else 31

/-- `datetime.datetime.strptime(s, "%Y-%m-%dT%H:%M:%SZ")`, modelled for the
canonical fixed-width form the API emits (four-digit year, zero-padded
fields); `none` stands for the `ValueError` Python raises.  Field ranges
are validated as `datetime` does (month 1-12, calendar day, hour 0-23,
minute and second 0-59, year ≥ 1). -/
def strptimeZ (s : String) : Option PyDateTime :=
  match s.toList with
  | [y1, y2, y3, y4, '-', m1, m2, '-', d1, d2, 'T',
     h1, h2, ':', n1, n2, ':', s1, s2, 'Z'] => do
    let year ← digit4 y1 y2 y3 y4
    let month ← digit2 m1 m2
    let day ← digit2 d1 d2
    let hour ← digit2 h1 h2
    let minute ← digit2 n1 n2
    let second ← digit2 s1 s2
    if 1 ≤ year ∧ 1 ≤ month ∧ month ≤ 12 ∧ 1 ≤ day ∧ day ≤ daysInMonth year month
        ∧ hour ≤ 23 ∧ minute ≤ 59 ∧ second ≤ 59 then
      pure ⟨year, month, day, hour, minute, second⟩
    else
      none
  | _ => none

/-- Python `str.zfill` for the unsigned strings used here: left-pad with
`'0'` to the requested width. -/
def zfill (s : String) (width : Nat) : String :=
  if width ≤ s.length then s
  else String.mk (List.replicate (width - s.length) '0') ++ s

/-- One call-recording metadata record, as consumed by the export script. -/
structure Recording where
  date_time : String
  caller_number : String
  callee_number : String
  download_url : String
deriving DecidableEq, Repr

/-- The storage directory `os.path.join("recordings", str(year), str(month),
user)` (posix separators): year and month via `str`, not zero-padded. -/
def recordingDirectory (user : String) (d : PyDateTime) : String :=
  "recordings" ++ "/" ++ toString d.year ++ "/" ++ toString d.month ++ "/" ++ user

/-- The file name `str(year) + str(month).zfill(2) + str(day).zfill(2) + "-"
+ str(hour).zfill(2) + str(minute).zfill(2) + "-" + caller + "-" + callee
+ ".mp3"`. -/
def recordingFilename (d : PyDateTime) (caller callee : String) : String :=
  toString d.year ++ zfill (toString d.month) 2 ++ zfill (toString d.day) 2
    ++ "-" ++ zfill (toString d.hour) 2 ++ zfill (toString d.minute) 2
    ++ "-" ++ caller ++ "-" ++ callee ++ ".mp3"

/-- Full path derived for a recording of a user: parse the timestamp
(`none` = the `strptime` `ValueError`), then join directory and file name. -/
def recordingPath (user : String) (r : Recording) : Option String :=
  (strptimeZ r.date_time).map fun d =>
    recordingDirectory user d ++ "/" ++ recordingFilename d r.caller_number r.callee_number

/-- The inner loop of `download_call_recordings` for one user
(`call_recordings.py` lines 43-88).  State: `files` is the set of paths
existing on disk (writing a file adds its path), `downloads` the list of
download URLs actually fetched over the network, `count` the per-user
`download_count`.  A recording whose derived path already exists is
skipped entirely; otherwise its body is fetched and written.  A timestamp
that fails to parse raises (aborting the run), modelled as `.error`.
Directory creation has no effect on file-path existence and is omitted. -/
def downloadUserRecordings (user : String) :
    List Recording → List String → List String → Nat →
    Except String (List String × List String × Nat)
  | [], files, downloads, count => .ok (files, downloads, count)
  | r :: rest, files, downloads, count =>
    match recordingPath user r with
    | none => .error "ValueError: time data does not match format"
    | some p =>
      if p ∈ files then
        downloadUserRecordings user rest files downloads count
      else
        downloadUserRecordings user rest (p :: files) (downloads ++ [r.download_url]) (count + 1)

/-- `download_call_recordings` (`call_recordings.py` lines 15-88): iterate
the user-to-recordings mapping in order; for each user run the inner loop
starting from `download_count = 0` and log the count.  Returns the final
set of on-disk paths, all network downloads in order, and the per-user
reported counts. -/
def download_call_recordings :
    List (String × List Recording) → List String →
    Except String (List String × List String × List (String × Nat))
  | [], files => .ok (files, [], [])
  | (user, recs) :: rest, files =>
    match downloadUserRecordings user recs files [] 0 with
    | .error e => .error e
    | .ok (files', dls, count) =>
      match download_call_recordings rest files' with
      | .error e => .error e
      | .ok (files'', dls', counts) => .ok (files'', dls ++ dls', (user, count) :: counts)

/-- The mapping-building loop of `get_call_recordings`
(`call_recordings.py` lines 110-126).  `fetch` stands for
`zoomapi.phone.get_user_call_recordings`; its errors are caught, logged
and skipped (`except Exception`).  A user with a successful fetch is added
to `user_2_recording` only when the returned list is non-empty.  User
emails are assumed unique (they key a Python dict). -/
def build_user_2_recording (fetch : String → Except String (List Recording)) :
    List String → List (String × List Recording)
  | [] => []
  | u :: rest =>
    match fetch u with
    | .ok recs =>
      if recs.length > 0 then (u, recs) :: build_user_2_recording fetch rest
      else build_user_2_recording fetch rest
    | .error _ => build_user_2_recording fetch rest

/-- `get_call_recordings` (lines 91-131): build the mapping over the user
list, then hand it to `download_call_recordings` (here with an explicit
initial on-disk state). -/
def get_call_recordings (fetch : String → Except String (List Recording))
    (users : List String) (files : List String) :
    Except String (List String × List String × List (String × Nat)) :=
  download_call_recordings (build_user_2_recording fetch users) files

/-! ## Helper definitions and lemmas for the claim theorems -/

/-- Number of HTTP requests recorded in a trace. -/
def countRequests : List Ev → Nat
  | [] => 0
  | .request _ _ :: rest => countRequests rest + 1
  | .sleepOneSecond :: rest => countRequests rest

/-- The trace of `n` consecutive rate-limited attempts: every attempt
after the first is preceded by one 1-second sleep. -/
def all429Trace (url : String) (params : Option (List (String × Json))) : Nat → List Ev
  | 0 => []
  | 1 => [.request url params]
  | n + 2 => .request url params :: .sleepOneSecond :: all429Trace url params (n + 1)

theorem rateLimitLoop_all429 (url : String) (params : Option (List (String × Json))) :
    ∀ (responses : List HttpResponse) (counter : Nat),
    (∀ r ∈ responses, r.status_code = 429) → counter ≤ 6 → 7 - counter ≤ responses.length →
    rateLimitLoop url params responses counter =
      ⟨.error (.rateLimitExceeded url), responses.drop (7 - counter),
        all429Trace url params (7 - counter)⟩ := by
  intro responses
  induction responses with
  | nil => intro counter _ hc hl; simp at hl; omega
  | cons r rest ih =>
    intro counter hall hc hl
    have hr : r.status_code = 429 := hall r (List.mem_cons_self r rest)
    by_cases hc6 : counter > 5
    · have hceq : counter = 6 := by omega
      subst hceq
      simp [rateLimitLoop, hr, all429Trace]
    · have hrec := ih (counter + 1) (fun x hx => hall x (List.mem_cons_of_mem r hx))
        (by omega) (by simp at hl ⊢; omega)
      have h76 : 7 - counter = (6 - counter) + 1 := by omega
      have h6c : 6 - counter = (5 - counter) + 1 := by omega
      have h75 : 7 - (counter + 1) = 6 - counter := by omega
      rw [h75] at hrec
      simp only [rateLimitLoop, hr]
      norm_num [hc6, hrec, h76, h6c, all429Trace]

/-- C1 (amended): with every response an HTTP 429, the paginating fetch
raises the retries-exhausted `RuntimeError` after exactly seven attempts —
the initial request plus six retries, each retry preceded by one fixed
1-second pause — leaving the eighth and later scripted responses
unconsumed. -/
theorem rate_limit_exhausts_after_seven_attempts (server endpoint_url : String)
    (params : Option (List (String × Json))) (k : String) (responses : List HttpResponse)
    (hall : ∀ r ∈ responses, r.status_code = 429) (hlen : 7 ≤ responses.length) :
    phone_get server endpoint_url params false (some k) responses =
      ⟨.error (.rateLimitExceeded ("https://" ++ server ++ endpoint_url)),
        responses.drop 7, all429Trace ("https://" ++ server ++ endpoint_url) params 7⟩
    ∧ all429Trace ("https://" ++ server ++ endpoint_url) params 7 =
      [.request ("https://" ++ server ++ endpoint_url) params, .sleepOneSecond,
       .request ("https://" ++ server ++ endpoint_url) params, .sleepOneSecond,
       .request ("https://" ++ server ++ endpoint_url) params, .sleepOneSecond,
       .request ("https://" ++ server ++ endpoint_url) params, .sleepOneSecond,
       .request ("https://" ++ server ++ endpoint_url) params, .sleepOneSecond,
       .request ("https://" ++ server ++ endpoint_url) params, .sleepOneSecond,
       .request ("https://" ++ server ++ endpoint_url) params] := by
  constructor
  · have h := rateLimitLoop_all429 ("https://" ++ server ++ endpoint_url) params responses 0
      hall (by omega) (by simpa using hlen)
    simp only [phone_get, h]
  · rfl

/-- C1 witness: seven scripted 429 responses are exactly consumed. -/
theorem rate_limit_exhausts_after_seven_attempts_witness :
    phone_get "zoom.us" "/phone/users" (some []) false (some "users")
        (List.replicate 7 ⟨429, Json.null⟩) =
      ⟨.error (.rateLimitExceeded "https://zoom.us/phone/users"), [],
        all429Trace "https://zoom.us/phone/users" (some []) 7⟩ := by
  simpa using (rate_limit_exhausts_after_seven_attempts "zoom.us" "/phone/users" (some [])
    "users" (List.replicate 7 ⟨429, Json.null⟩) (by decide) (by decide)).1

/-- C1 counterexample to the claim as stated: with every response an HTTP
429, the fetch does raise the retries-exhausted error, but only after
seven requests, not six. -/
theorem rate_limit_not_six_attempts :
    (phone_get "zoom.us" "/phone/users" (some []) false (some "users")
        (List.replicate 10 ⟨429, Json.null⟩)).result
      = .error (.rateLimitExceeded "https://zoom.us/phone/users")
    ∧ countRequests (phone_get "zoom.us" "/phone/users" (some []) false (some "users")
        (List.replicate 10 ⟨429, Json.null⟩)).trace = 7
    ∧ countRequests (phone_get "zoom.us" "/phone/users" (some []) false (some "users")
        (List.replicate 10 ⟨429, Json.null⟩)).trace ≠ 6 := by
  refine ⟨rfl, rfl, by decide⟩

/-- C4: a response whose status is neither 200 nor 429 raises the
`RuntimeError` carrying that status code immediately: a single request, no
sleep, no retry.  The first conjunct states this for the rate-limit loop
at any retry counter (hence at any point of a retry sequence or of
pagination, every request of which runs through this loop); the second for
`_phone_get` itself. -/
theorem http_error_immediate (server endpoint_url : String)
    (params : Option (List (String × Json))) (r : HttpResponse) (rest : List HttpResponse)
    (h200 : r.status_code ≠ 200) (h429 : r.status_code ≠ 429) :
    (∀ url counter, rateLimitLoop url params (r :: rest) counter =
      ⟨.error (.httpError r.status_code url), rest, [.request url params]⟩)
    ∧ ∀ raw k, (raw = true ∨ k ≠ none) →
      phone_get server endpoint_url params raw k (r :: rest) =
        ⟨.error (.httpError r.status_code ("https://" ++ server ++ endpoint_url)),
          rest, [.request ("https://" ++ server ++ endpoint_url) params]⟩ := by
  have hloop : ∀ url counter, rateLimitLoop url params (r :: rest) counter =
      ⟨.error (.httpError r.status_code url), rest, [.request url params]⟩ := by
    intro url counter
    simp [rateLimitLoop, h200, h429]
  refine ⟨hloop, ?_⟩
  intro raw k hk
  cases raw with
  | true => simp only [phone_get, hloop]
  | false =>
    cases k with
    | none => simp at hk
    | some k => simp only [phone_get, hloop]

/-- C4 witness: a 500 response is surfaced at once with its status code. -/
theorem http_error_immediate_witness :
    phone_get "zoom.us" "/phone/users" (some []) false (some "users") [⟨500, Json.null⟩] =
      ⟨.error (.httpError 500 "https://zoom.us/phone/users"), [],
        [.request "https://zoom.us/phone/users" (some [])]⟩ :=
  (http_error_immediate "zoom.us" "/phone/users" (some []) ⟨500, Json.null⟩ []
    (by decide) (by decide)).2 false (some "users") (Or.inr (by simp))

/-- C8: calling `_phone_get` with `raw=False` and no
`key_in_response_to_return` raises the `ValueError` before any HTTP
request is issued (empty trace, all scripted responses unconsumed),
whatever the endpoint and params. -/
theorem nonraw_without_key_value_error (server endpoint_url : String)
    (params : Option (List (String × Json))) (responses : List HttpResponse) :
    phone_get server endpoint_url params false none responses =
      ⟨.error (.valueError "You must specify a key_in_response_to_return if 'raw' = False"),
        responses, []⟩ := rfl

/-- C2 (amended): only on the first page does a 200 response missing the
named field signal the missing-data `RuntimeWarning` (first conjunct).  On
every subsequent page a 200 response missing the field is silently
skipped: the accumulator is passed on unchanged and pagination simply
continues (second conjunct). -/
theorem missing_data_error_first_page_only :
    (∀ (server endpoint_url k : String) (params : Option (List (String × Json)))
        (body : Json) (rest : List HttpResponse), body.get k = none →
      phone_get server endpoint_url params false (some k) (⟨200, body⟩ :: rest) =
        ⟨.error (.missingKey k), rest, [.request ("https://" ++ server ++ endpoint_url) params]⟩)
    ∧ (∀ (url k : String) (ps : List (String × Json)) (acc rj tok b2 : Json)
        (rest : List HttpResponse),
        rj.get "next_page_token" = some tok → jsonIsEmptyStr tok = false → b2.get k = none →
        paginate url k (some ps) acc rj (⟨200, b2⟩ :: rest) =
          ⟨(paginate url k (some (setParam ps "next_page_token" tok)) acc b2 rest).result,
           (paginate url k (some (setParam ps "next_page_token" tok)) acc b2 rest).rest,
           .request url (some (setParam ps "next_page_token" tok)) ::
             (paginate url k (some (setParam ps "next_page_token" tok)) acc b2 rest).trace⟩) := by
  constructor
  · intro server endpoint_url k params body rest h
    simp [phone_get, rateLimitLoop, h]
  · intro url k ps acc rj tok b2 rest h1 h2 h3
    rw [paginate]
    simp [h1, h2, h3, rateLimitLoop]

/-- C2 witness: a first page without the `"users"` field raises the
missing-data failure. -/
theorem missing_data_error_first_page_only_witness :
    phone_get "zoom.us" "/phone/users" (some []) false (some "users")
        (⟨200, Json.obj [("next_page_token", Json.str "")]⟩ :: []) =
      ⟨.error (.missingKey "users"), [], [.request "https://zoom.us/phone/users" (some [])]⟩ :=
  missing_data_error_first_page_only.1 "zoom.us" "/phone/users" "users" (some [])
    (Json.obj [("next_page_token", Json.str "")]) [] rfl

/-- C2 counterexample to the claim as stated: the second page is a 200
response without the `"users"` field, yet no missing-data error is
signalled — the fetch silently returns the partial result of page one. -/
theorem missing_key_second_page_silently_skipped :
    (phone_get "zoom.us" "/phone/users" (some []) false (some "users")
      [⟨200, Json.obj [("users", Json.arr [Json.str "a"]), ("next_page_token", Json.str "t")]⟩,
       ⟨200, Json.obj [("next_page_token", Json.str "")]⟩]).result
      = .ok (Json.arr [Json.str "a"]) := by
  simp [phone_get, paginate, rateLimitLoop, Json.get, Json.get.lookupField, jsonIsEmptyStr,
    setParam]

/-- C10: for a successful non-raw first page, `"next_page_token"` is
mandatory: when the field is absent the fetch dies with an unhandled
`KeyError` (first conjunct); and when the token is present and non-empty
while `params` is `None`, it dies with an unhandled `TypeError` (second
conjunct) — in both cases no data and no explicitly signalled failure. -/
theorem nonraw_token_requirements :
    (∀ (server endpoint_url k : String) (params : Option (List (String × Json)))
        (body v : Json) (rest : List HttpResponse),
      body.get k = some v → body.get "next_page_token" = none →
      (phone_get server endpoint_url params false (some k) (⟨200, body⟩ :: rest)).result =
        .error (.keyError "next_page_token"))
    ∧ (∀ (server endpoint_url k : String) (body v tok : Json) (rest : List HttpResponse),
      body.get k = some v → body.get "next_page_token" = some tok →
      jsonIsEmptyStr tok = false →
      (phone_get server endpoint_url none false (some k) (⟨200, body⟩ :: rest)).result =
        .error .typeError) := by
  constructor
  · intro server endpoint_url k params body v rest hv hnpt
    simp [phone_get, rateLimitLoop, hv]
    rw [paginate]
    simp [hnpt]
  · intro server endpoint_url k body v tok rest hv hnpt htok
    simp [phone_get, rateLimitLoop, hv]
    rw [paginate]
    simp [hnpt, htok]

/-- C10 witness: a first page carrying the `"users"` field but no
`"next_page_token"` hits the `KeyError`; one carrying a non-empty token
with `params=None` hits the `TypeError`. -/
theorem nonraw_token_requirements_witness :
    (phone_get "zoom.us" "/phone/users" (some []) false (some "users")
        [⟨200, Json.obj [("users", Json.arr [])]⟩]).result =
      .error (.keyError "next_page_token")
    ∧ (phone_get "zoom.us" "/phone/users" none false (some "users")
        [⟨200, Json.obj [("users", Json.arr []), ("next_page_token", Json.str "t")]⟩]).result =
      .error .typeError :=
  ⟨nonraw_token_requirements.1 "zoom.us" "/phone/users" "users" (some [])
      (Json.obj [("users", Json.arr [])]) (Json.arr []) [] rfl rfl,
   nonraw_token_requirements.2 "zoom.us" "/phone/users" "users"
      (Json.obj [("users", Json.arr []), ("next_page_token", Json.str "t")])
      (Json.arr []) (Json.str "t") [] rfl rfl rfl⟩

/-- A synthetic paginated 200 response: the named array field holding
`items` and a `next_page_token` holding `tok`. -/
def pageBody (k : String) (items : List Json) (tok : String) : Json :=
  Json.obj [(k, Json.arr items), ("next_page_token", Json.str tok)]

def pageResponse (k : String) (p : List Json × String) : HttpResponse :=
  ⟨200, pageBody k p.1 p.2⟩

/-- The pagination-token discipline of a well-formed page sequence: `t` is
the token of the page already fetched; every token is non-empty except the
last page's, which is empty. -/
def tokensOk : String → List (List Json × String) → Bool
  | t, [] => t == ""
  | t, p :: rest => t != "" && tokensOk p.2 rest

theorem paginate_pages (url k : String) (hk : k ≠ "next_page_token") :
    ∀ (pages : List (List Json × String)) (ps : List (String × Json))
      (acc items0 : List Json) (t : String),
    tokensOk t pages = true →
    (paginate url k (some ps) (Json.arr acc) (pageBody k items0 t)
        (pages.map (pageResponse k))).result =
      .ok (Json.arr (acc ++ (pages.map Prod.fst).flatten)) := by
  intro pages
  induction pages with
  | nil =>
    intro ps acc items0 t ht
    simp [tokensOk] at ht
    rw [paginate]
    simp [pageBody, Json.get, Json.get.lookupField, hk, jsonIsEmptyStr, ht]
  | cons p rest ih =>
    intro ps acc items0 t ht
    simp [tokensOk] at ht
    obtain ⟨ht1, ht2⟩ := ht
    have hrec := ih (setParam ps "next_page_token" (Json.str t)) (acc ++ p.1) p.1 p.2 ht2
    simp only [pageBody] at hrec
    rw [paginate]
    simp [ht1, rateLimitLoop, pageResponse, pyAdd, pageBody, Json.get, Json.get.lookupField, hk,
      jsonIsEmptyStr, hrec, List.append_assoc]

/-- C3: for any sequence of paginated 200 responses — each carrying the
named array field and a `next_page_token` that is non-empty except on the
last page — the non-raw fetch returns the concatenation of all pages'
arrays in server order.  (The fetch always issues at least one request, so
the sequence has a first page; a run with no items is the single page with
an empty array.) -/
theorem pagination_concatenates (server endpoint_url k : String)
    (hk : k ≠ "next_page_token") (ps : List (String × Json))
    (first : List Json × String) (pages : List (List Json × String))
    (htok : tokensOk first.2 pages = true) :
    (phone_get server endpoint_url (some ps) false (some k)
        (pageResponse k first :: pages.map (pageResponse k))).result =
      .ok (Json.arr (((first :: pages).map Prod.fst).flatten)) := by
  have hrec := paginate_pages ("https://" ++ server ++ endpoint_url) k hk pages ps
    first.1 first.1 first.2 htok
  simp only [pageBody] at hrec
  simp [phone_get, rateLimitLoop, pageResponse, pageBody, Json.get, Json.get.lookupField, hk,
    hrec]

/-- C3 witness: two pages concatenate in order. -/
theorem pagination_concatenates_witness :
    (phone_get "zoom.us" "/phone/users" (some []) false (some "users")
        (pageResponse "users" ([Json.str "a"], "t") ::
          [([Json.str "b"], "")].map (pageResponse "users"))).result =
      .ok (Json.arr [Json.str "a", Json.str "b"]) := by
  simpa using pagination_concatenates "zoom.us" "/phone/users" "users" (by decide) []
    ([Json.str "a"], "t") [([Json.str "b"], "")] (by decide)

/-- C5: path derivation is the pure function `recordingPath` of the
timestamp, caller number, callee number and user email (identical inputs
give identical paths by definition; the download URL is not consulted).
First conjunct: the concrete example — directory `recordings/2020/8/`
with the month not zero-padded, filename with month, day, hour, minute
zero-padded to two digits.  Second conjunct: the general shape
`recordings/<year>/<month>/<user>/` (month via `str`, unpadded) and the
zero-padded filename, for every parseable timestamp. -/
theorem recording_path_spec :
    (∀ (user url : String),
      recordingPath user ⟨"2020-08-21T22:17:05Z", "16505551212", "104", url⟩ =
        some ("recordings/2020/8" ++ "/" ++ user ++ "/" ++ "20200821-2217-16505551212-104.mp3"))
    ∧ (∀ (user dt caller callee url : String) (d : PyDateTime), strptimeZ dt = some d →
      recordingPath user ⟨dt, caller, callee, url⟩ =
        some (("recordings" ++ "/" ++ toString d.year ++ "/" ++ toString d.month ++ "/" ++ user)
          ++ "/" ++ (toString d.year ++ zfill (toString d.month) 2 ++ zfill (toString d.day) 2
          ++ "-" ++ zfill (toString d.hour) 2 ++ zfill (toString d.minute) 2
          ++ "-" ++ caller ++ "-" ++ callee ++ ".mp3"))) := by
  constructor
  · intro user url
    rfl
  · intro user dt caller callee url d h
    simp [recordingPath, h, recordingDirectory, recordingFilename]

/-- C5 witness: the general formula evaluated at the example timestamp. -/
theorem recording_path_spec_witness :
    recordingPath "john.doe@domain.com" ⟨"2020-08-21T22:17:05Z", "16505551212", "104", "u"⟩ =
      some "recordings/2020/8/john.doe@domain.com/20200821-2217-16505551212-104.mp3" := by
  rw [recording_path_spec.2 "john.doe@domain.com" "2020-08-21T22:17:05Z" "16505551212" "104"
    "u" ⟨2020, 8, 21, 22, 17, 5⟩ rfl]
  rfl

/-- C7: an error from the per-user recording fetch is caught and
swallowed: the failing user contributes nothing and the mapping built for
the remaining users — and hence the whole download phase — is exactly
what it would have been without that user.  Since the builder is a total
function, the run never aborts. -/
theorem user_fetch_error_skips_user (fetch : String → Except String (List Recording))
    (u : String) (users : List String) (e : String) (h : fetch u = .error e) :
    build_user_2_recording fetch (u :: users) = build_user_2_recording fetch users
    ∧ ∀ files, get_call_recordings fetch (u :: users) files =
        get_call_recordings fetch users files := by
  have hb : build_user_2_recording fetch (u :: users) = build_user_2_recording fetch users := by
    simp [build_user_2_recording, h]
  exact ⟨hb, fun files => by simp [get_call_recordings, hb]⟩

/-- C7 witness: a failing first user leaves the second user's processing
untouched. -/
theorem user_fetch_error_skips_user_witness :
    build_user_2_recording
        (fun v => if v = "bad@d.com" then .error "boom"
          else .ok [⟨"2020-08-21T22:17:05Z", "1", "2", "url"⟩])
        ["bad@d.com", "good@d.com"] =
      build_user_2_recording
        (fun v => if v = "bad@d.com" then .error "boom"
          else .ok [⟨"2020-08-21T22:17:05Z", "1", "2", "url"⟩])
        ["good@d.com"] :=
  (user_fetch_error_skips_user
    (fun v => if v = "bad@d.com" then .error "boom"
      else .ok [⟨"2020-08-21T22:17:05Z", "1", "2", "url"⟩])
    "bad@d.com" ["good@d.com"] "boom" rfl).1

/-- C9: a user whose fetch succeeds with an empty list is never added to
`user_2_recording`: every mapping entry holds a non-empty recording list
(first conjunct), a user with an empty fetch result is never a key (second
conjunct), and the download phase reports exactly one log line / count per
mapping key (third conjunct) — hence none for zero-recording users. -/
theorem mapping_entries_nonempty :
    (∀ (fetch : String → Except String (List Recording)) (users : List String)
        (p : String × List Recording), p ∈ build_user_2_recording fetch users → p.2 ≠ [])
    ∧ (∀ (fetch : String → Except String (List Recording)) (users : List String)
        (u : String), fetch u = .ok [] →
        u ∉ (build_user_2_recording fetch users).map Prod.fst)
    ∧ (∀ (mapping : List (String × List Recording)) (files fs2 d2 : List String)
        (counts : List (String × Nat)),
        download_call_recordings mapping files = .ok (fs2, d2, counts) →
        counts.map Prod.fst = mapping.map Prod.fst) := by
  refine ⟨?_, ?_, ?_⟩
  · intro fetch users
    induction users with
    | nil => intro p hp; simp [build_user_2_recording] at hp
    | cons v rest ih =>
      intro p hp
      simp only [build_user_2_recording] at hp
      split at hp
      · split at hp
        · rename_i recs heq hlen
          rcases List.mem_cons.mp hp with h1 | h2
          · subst h1
            exact fun hnil => absurd hlen (by simp [show recs = [] from hnil])
          · exact ih p h2
        · exact ih p hp
      · exact ih p hp
  · intro fetch users u hu
    induction users with
    | nil => simp [build_user_2_recording]
    | cons v rest ih =>
      simp only [build_user_2_recording]
      split
      · split
        · rename_i recs heq hlen
          simp only [List.map_cons, List.mem_cons]
          intro hmem
          rcases hmem with h1 | h2
          · subst h1; rw [hu] at heq
            injection heq with heq
            simp [← heq] at hlen
          · exact ih h2
        · exact ih
      · exact ih
  · intro mapping
    induction mapping with
    | nil =>
      intro files fs2 d2 counts h
      simp only [download_call_recordings, Except.ok.injEq, Prod.mk.injEq] at h
      simp [← h.2.2]
    | cons q rest ih =>
      intro files fs2 d2 counts h
      simp only [download_call_recordings] at h
      cases hu : downloadUserRecordings q.1 q.2 files [] 0 with
      | error e => rw [hu] at h; exact absurd h (by simp)
      | ok triple =>
        obtain ⟨files1, dls1, count1⟩ := triple
        rw [hu] at h
        dsimp only at h
        cases hr : download_call_recordings rest files1 with
        | error e => rw [hr] at h; exact absurd h (by simp)
        | ok triple2 =>
          obtain ⟨files2, dls2, counts2⟩ := triple2
          rw [hr] at h
          dsimp only at h
          simp only [Except.ok.injEq, Prod.mk.injEq] at h
          obtain ⟨-, -, h3⟩ := h
          subst h3
          simp [ih files1 files2 dls2 counts2 hr]

/-- C9 witness: a user fetching an empty list never becomes a mapping key. -/
theorem mapping_entries_nonempty_witness :
    "empty@d.com" ∉
      (build_user_2_recording (fun _ => .ok []) ["empty@d.com"]).map Prod.fst :=
  mapping_entries_nonempty.2.1 (fun _ => .ok []) ["empty@d.com"] "empty@d.com" rfl

theorem downloadUser_ok_subset (user : String) :
    ∀ (recs : List Recording) (files dls : List String) (count : Nat)
      (fs2 d2 : List String) (c2 : Nat),
    downloadUserRecordings user recs files dls count = .ok (fs2, d2, c2) →
    files ⊆ fs2 ∧ ∀ r ∈ recs, ∃ p, recordingPath user r = some p ∧ p ∈ fs2 := by
  intro recs
  induction recs with
  | nil =>
    intro files dls count fs2 d2 c2 h
    simp only [downloadUserRecordings, Except.ok.injEq, Prod.mk.injEq] at h
    obtain ⟨h1, -, -⟩ := h
    subst h1
    exact ⟨List.Subset.refl _, by simp⟩
  | cons r rest ih =>
    intro files dls count fs2 d2 c2 h
    simp only [downloadUserRecordings] at h
    split at h
    · exact absurd h (by simp)
    · rename_i p hp
      split at h
      · rename_i hmem
        obtain ⟨hsub, hrest⟩ := ih files dls count fs2 d2 c2 h
        refine ⟨hsub, ?_⟩
        intro x hx
        rcases List.mem_cons.mp hx with h1 | h2
        · exact ⟨p, h1 ▸ hp, hsub hmem⟩
        · exact hrest x h2
      · rename_i hmem
        obtain ⟨hsub, hrest⟩ := ih (p :: files) (dls ++ [r.download_url]) (count + 1)
          fs2 d2 c2 h
        refine ⟨fun x hx => hsub (List.mem_cons_of_mem p hx), ?_⟩
        intro x hx
        rcases List.mem_cons.mp hx with h1 | h2
        · exact ⟨p, h1 ▸ hp, hsub (List.mem_cons_self p files)⟩
        · exact hrest x h2

theorem downloadUser_all_present (user : String) :
    ∀ (recs : List Recording) (files dls : List String) (count : Nat),
    (∀ r ∈ recs, ∃ p, recordingPath user r = some p ∧ p ∈ files) →
    downloadUserRecordings user recs files dls count = .ok (files, dls, count) := by
  intro recs
  induction recs with
  | nil => intro files dls count _; rfl
  | cons r rest ih =>
    intro files dls count hall
    obtain ⟨p, hp, hmem⟩ := hall r (List.mem_cons_self r rest)
    simp only [downloadUserRecordings, hp, if_pos hmem]
    exact ih files dls count (fun x hx => hall x (List.mem_cons_of_mem r hx))

theorem download_ok_all_present :
    ∀ (mapping : List (String × List Recording)) (files fs2 d2 : List String)
      (counts : List (String × Nat)),
    download_call_recordings mapping files = .ok (fs2, d2, counts) →
    files ⊆ fs2 ∧ ∀ q ∈ mapping, ∀ r ∈ q.2, ∃ p, recordingPath q.1 r = some p ∧ p ∈ fs2 := by
  intro mapping
  induction mapping with
  | nil =>
    intro files fs2 d2 counts h
    simp only [download_call_recordings, Except.ok.injEq, Prod.mk.injEq] at h
    obtain ⟨h1, -, -⟩ := h
    subst h1
    exact ⟨List.Subset.refl _, by simp⟩
  | cons q rest ih =>
    intro files fs2 d2 counts h
    simp only [download_call_recordings] at h
    cases hu : downloadUserRecordings q.1 q.2 files [] 0 with
    | error e => rw [hu] at h; exact absurd h (by simp)
    | ok triple =>
      obtain ⟨files1, dls1, count1⟩ := triple
      rw [hu] at h
      dsimp only at h
      cases hr : download_call_recordings rest files1 with
      | error e => rw [hr] at h; exact absurd h (by simp)
      | ok triple2 =>
        obtain ⟨files2, dls2, counts2⟩ := triple2
        rw [hr] at h
        dsimp only at h
        simp only [Except.ok.injEq, Prod.mk.injEq] at h
        obtain ⟨h1, -, -⟩ := h
        subst h1
        obtain ⟨hsub1, hall1⟩ := downloadUser_ok_subset q.1 q.2 files [] 0 files1 dls1 count1 hu
        obtain ⟨hsub2, hall2⟩ := ih files1 _ dls2 counts2 hr
        refine ⟨fun x hx => hsub2 (hsub1 hx), ?_⟩
        intro w hw r hr2
        rcases List.mem_cons.mp hw with h1 | h2
        · obtain ⟨p, hp, hmem⟩ := hall1 r (h1 ▸ hr2)
          exact ⟨p, by rw [h1]; exact hp, hsub2 hmem⟩
        · exact hall2 w h2 r hr2

theorem download_rerun :
    ∀ (mapping : List (String × List Recording)) (files : List String),
    (∀ q ∈ mapping, ∀ r ∈ q.2, ∃ p, recordingPath q.1 r = some p ∧ p ∈ files) →
    download_call_recordings mapping files =
      .ok (files, [], mapping.map fun q => (q.1, 0)) := by
  intro mapping
  induction mapping with
  | nil => intro files _; rfl
  | cons q rest ih =>
    intro files hall
    have hu := downloadUser_all_present q.1 q.2 files [] 0
      (hall q (List.mem_cons_self q rest))
    have hr := ih files (fun w hw => hall w (List.mem_cons_of_mem q hw))
    simp [download_call_recordings, hu, hr]

/-- C6: first conjunct — a recording whose derived path already exists is
skipped outright: processing it is the identity on the on-disk set, the
download list and the count, exactly as if the recording were absent
(together with the fact that a miss inserts the path into the on-disk
set, this gives "downloaded at most once per run").  Second conjunct —
re-running the whole export over the final on-disk state of a successful
run downloads nothing and reports a count of 0 for every user. -/
theorem existing_file_never_redownloaded :
    (∀ (user : String) (r : Recording) (rest : List Recording) (files dls : List String)
        (count : Nat) (p : String), recordingPath user r = some p → p ∈ files →
      downloadUserRecordings user (r :: rest) files dls count =
        downloadUserRecordings user rest files dls count)
    ∧ (∀ (mapping : List (String × List Recording)) (files fs2 d2 : List String)
        (counts : List (String × Nat)),
        download_call_recordings mapping files = .ok (fs2, d2, counts) →
        download_call_recordings mapping fs2 =
          .ok (fs2, [], mapping.map fun q => (q.1, 0))) := by
  constructor
  · intro user r rest files dls count p hp hmem
    simp only [downloadUserRecordings, hp, if_pos hmem]
  · intro mapping files fs2 d2 counts h
    exact download_rerun mapping fs2 (download_ok_all_present mapping files fs2 d2 counts h).2

/-- C6 witness: after a run that downloaded one file, re-running over its
resulting disk state downloads nothing and reports 0. -/
theorem existing_file_never_redownloaded_witness :
    download_call_recordings [("u", [⟨"2020-08-21T22:17:05Z", "165", "104", "du"⟩])]
        ["recordings/2020/8/u/20200821-2217-165-104.mp3"] =
      .ok (["recordings/2020/8/u/20200821-2217-165-104.mp3"], [], [("u", 0)]) := by
  have h := existing_file_never_redownloaded.2
    [("u", [⟨"2020-08-21T22:17:05Z", "165", "104", "du"⟩])] []
    ["recordings/2020/8/u/20200821-2217-165-104.mp3"] ["du"] [("u", 1)] rfl
  simpa using h

end ZoomPhone
